import Mathlib

set_option linter.unusedVariables false

/-!
Verification of the DasanNOS napalm driver core (napalm_dasan_nos/dasan_nos.py)
against its natural-language specification.

The Python source is shallowly embedded: pure helpers become Lean functions on
`String` / `List Char`, the interactive device is an explicit function from a
command string to its raw output, Python exceptions become `Except` values, and
Python floats on the paths verified here are modelled by exact arithmetic
(`Nat`, `ℚ`); theorems that depend on float exactness carry an explicit
magnitude hypothesis.
-/

namespace DasanNOS

/-- The ASCII part of Python's whitespace class, as used by `str.strip()` and
by the regex class `\s` on ASCII text. -/
def pyIsSpace (c : Char) : Bool :=
  c = ' ' || c = '\t' || c = '\n' || c = '\r' || c = '\x0b' || c = '\x0c'

/-- `str.strip()` on a character list: drop whitespace at both ends. -/
def pyStripL (s : List Char) : List Char :=
  ((s.dropWhile pyIsSpace).reverse.dropWhile pyIsSpace).reverse

/-- Python `str.strip()`. -/
def pyStrip (s : String) : String :=
  ⟨pyStripL s.data⟩

/-- Python `needle in hay` substring test on character lists. -/
def hasSubstr (needle : List Char) : List Char → Bool
  | [] => needle.isEmpty
  | c :: t => needle.isPrefixOf (c :: t) || hasSubstr needle t

/-- Python `needle in hay` on strings. -/
def strContains (needle hay : String) : Bool :=
  hasSubstr needle.data hay.data

/-! ### `_format_uptime` (dasan_nos.py lines 114-132)

The regex
`(?:(?P<days>\d+) days )?(?:(?P<hours>\d+) hours )?(?:(?P<minutes>\d+) minutes )?(?P<seconds>\d+) seconds`
is matched at the start of the string (`re.match`).  Inside each group `\d+`
is forcibly maximal (the character after it in the pattern is a space, which is
not a digit, so a shorter digit run can never extend to a match); the only real
backtracking is at the level of the three optional groups, which the regex
engine prefers to take and abandons when the remainder fails.  The parser
below reproduces exactly that preference order. -/

/-- Maximal run of ASCII digits at the head (the `\d+` token). -/
def takeDigits : List Char → List Char × List Char
  | [] => ([], [])
  | c :: t =>
    if c.isDigit then
      let (ds, r) := takeDigits t
      (c :: ds, r)
    else ([], c :: t)

/-- Numeric value of a digit run, as Python `int()` of the matched text. -/
def digitsVal (ds : List Char) : Nat :=
  ds.foldl (fun a c => a * 10 + (c.toNat - 48)) 0

/-- Consume an exact literal; return the remainder on success. -/
def dropLit : List Char → List Char → Option (List Char)
  | [], s => some s
  | _ :: _, [] => none
  | l :: ls, c :: t => if c = l then dropLit ls t else none

/-- One optional unit group of the uptime regex: `\d+` followed by a space,
the unit word and a trailing space (e.g. `"9 days "`). -/
def unitGrp (w : List Char) (s : List Char) : Option (Nat × List Char) :=
  match takeDigits s with
  | ([], _) => none
  | (ds, r) =>
    match dropLit (' ' :: (w ++ [' '])) r with
    | none => none
    | some r2 => some (digitsVal ds, r2)

/-- The mandatory seconds group `(?P<seconds>\d+) seconds` (no trailing space;
`re.match` does not anchor the end, so any remainder is accepted). -/
def secGrp (s : List Char) : Option Nat :=
  match takeDigits s with
  | ([], _) => none
  | (ds, r) =>
    match dropLit (' ' :: "seconds".data) r with
    | none => none
    | some _ => some (digitsVal ds)

/-- The named groups of the uptime regex, as `groupdict()` would return them:
`none` models a group that did not participate in the match. -/
structure UptimeGroups where
  days : Option Nat
  hours : Option Nat
  minutes : Option Nat
  seconds : Nat
  deriving DecidableEq, Repr

/-- Optional minutes group, then mandatory seconds. -/
def matchMin (s : List Char) : Option (Option Nat × Nat) :=
  (match unitGrp "minutes".data s with
   | some (m, r) =>
     match secGrp r with
     | some sec => some (some m, sec)
     | none => none
   | none => none) <|>
  (match secGrp s with
   | some sec => some (none, sec)
   | none => none)

/-- Optional hours group, then minutes/seconds. -/
def matchHr (s : List Char) : Option (Option Nat × Option Nat × Nat) :=
  (match unitGrp "hours".data s with
   | some (h, r) =>
     match matchMin r with
     | some (m, sec) => some (some h, m, sec)
     | none => none
   | none => none) <|>
  (match matchMin s with
   | some (m, sec) => some (none, m, sec)
   | none => none)

/-- `re.match` of the whole uptime regex: optional days group, then hours,
minutes and the mandatory seconds group. -/
def matchUptime (s : List Char) : Option UptimeGroups :=
  (match unitGrp "days".data s with
   | some (d, r) =>
     match matchHr r with
     | some (h, m, sec) => some ⟨some d, h, m, sec⟩
     | none => none
   | none => none) <|>
  (match matchHr s with
   | some (h, m, sec) => some ⟨none, h, m, sec⟩
   | none => none)

/-- The Python exceptions `_format_uptime` can raise. -/
inductive PyErr where
  | attributeError
  | typeError
  deriving DecidableEq, Repr

/-- `_format_uptime`: match the uptime regex, then iterate over the group
dict in definition order (days, hours, minutes, seconds), adding
`int(units[unit]) * weight` for each.  A failed match leaves `regex.match`
returning `None`, so the `.groupdict()` access raises `AttributeError`; a
group that did not participate is `None`, so `int(None)` raises `TypeError`.
The float accumulator is modelled exactly (see the magnitude hypothesis on
the corresponding theorem). -/
def _format_uptime (uptime : String) : Except PyErr Nat :=
  match matchUptime uptime.data with
  | none => .error .attributeError
  | some u =>
    match u.days with
    | none => .error .typeError
    | some d =>
      match u.hours with
      | none => .error .typeError
      | some h =>
        match u.minutes with
        | none => .error .typeError
        | some m => .ok (d * 86400 + h * 3600 + m * 60 + u.seconds)

example : _format_uptime "9 days 6 hours 17 minutes 25 seconds" = .ok 800245 := rfl
example : _format_uptime "45 seconds" = .error .typeError := rfl
example : _format_uptime "" = .error .attributeError := rfl
example : _format_uptime "10 minutes 5 seconds" = .error .typeError := rfl

/-! ### Temperature flags in `get_environment` (dasan_nos.py lines 204-216)

Each textfsm record's numeric fields have already been passed through Python
`float()`; they are modelled as exact rationals. -/

/-- A parsed `show status temp` record after `float()` coercion. -/
structure TempRecord where
  temp_name : String
  temp_value : ℚ
  temp_threshold_low : ℚ
  temp_threshold_high : ℚ

/-- The per-sensor entry `get_environment` stores under `data["temperature"]`. -/
structure TempInfo where
  temperature : ℚ
  is_alert : Bool
  is_critical : Bool

/-- The temperature-record post-processing of `get_environment`:
`is_critical = (value < threshold_low or value > threshold_high)` and
`is_alert = (value < threshold_low + threshold_low*0.10 or
value > threshold_high - threshold_high*0.10)`. -/
def tempInfoOf (e : TempRecord) : TempInfo :=
  { temperature := e.temp_value
  , is_alert := decide (e.temp_value < e.temp_threshold_low + e.temp_threshold_low * (1 / 10)) ||
      decide (e.temp_value > e.temp_threshold_high - e.temp_threshold_high * (1 / 10))
  , is_critical := decide (e.temp_value < e.temp_threshold_low) ||
      decide (e.temp_value > e.temp_threshold_high) }

/-- The `data["temperature"]` section: one keyed entry per record, in order. -/
def temperatureSection (rs : List TempRecord) : List (String × TempInfo) :=
  rs.map (fun e => (e.temp_name, tempInfoOf e))

/-! ### `_send_command` fallback chain (dasan_nos.py lines 96-112) -/

/-- A value returned by `netmiko`'s `send_command`: raw text, or (with
`use_textfsm=True` and a matching template) a list of parsed records. -/
inductive PyOutput where
  | str (s : String)
  | records (rs : List (List (String × String)))
  deriving DecidableEq

/-- `output.strip()` as applied on the unstructured path.  (With
`use_textfsm=False` netmiko always returns a `str`; the `records` case is
kept as the identity only to make the function total.) -/
def stripOut : PyOutput → PyOutput
  | .str s => .str (pyStrip s)
  | .records rs => .records rs

/-- Python `"% Invalid" in output`: a substring test on a `str`; on a list it
is element membership, and a string never equals a textfsm record dict, so it
is `False` there. -/
def containsInvalid : PyOutput → Bool
  | .str s => strContains "% Invalid" s
  | .records _ => false

/-- One iteration's processed output: `send_command(cmd, use_textfsm=...)`,
stripped unless `use_textfsm`.  `dev` models the device's response map. -/
def procOut (dev : String → PyOutput) (use_textfsm : Bool) (c : String) : PyOutput :=
  if use_textfsm then dev c else stripOut (dev c)

/-- The list branch of `_send_command`: starting from `output = ""`, run each
candidate in turn and break at the first whose processed output does not
contain `"% Invalid"`; the loop variable's final value is returned.  The
second component is the trace of commands actually executed, in order. -/
def sendCmdList (dev : String → PyOutput) (use_textfsm : Bool) :
    List String → PyOutput × List String
  | [] => (.str "", [])
  | c :: rest =>
    let o := procOut dev use_textfsm c
    if containsInvalid o = false then (o, [c])
    else if rest.isEmpty then (o, [c])
    else
      let t := sendCmdList dev use_textfsm rest
      (t.1, c :: t.2)

/-! ### `is_alive` (dasan_nos.py lines 261-272) -/

/-- The exception classes caught by `is_alive`'s handler: `socket.error` and
`EOFError` — the channel failure modes of the probe. -/
inductive ChanErr where
  | socketError
  | eofError
  deriving DecidableEq

/-- The state of an open netmiko session as far as `is_alive` observes it. -/
structure NetSession where
  /-- outcome of `write_channel(chr(0))`, which may raise a channel error -/
  writeNull : Except ChanErr Unit
  /-- `remote_conn.transport.is_active()` -/
  transportActive : Bool

/-- The `try` block of `is_alive`: write the null byte, then report the
transport's own active flag. -/
def isAliveBody (d : NetSession) : Except ChanErr Bool :=
  match d.writeNull with
  | .error e => .error e
  | .ok _ => .ok d.transportActive

/-- `is_alive`: `False` when no session has been opened (`self.device is
None`); otherwise run the probe, collapsing either caught channel error to
`False`.  The function is total — the embedding of "never raises". -/
def is_alive (device : Option NetSession) : Bool :=
  match device with
  | none => false
  | some d =>
    match isAliveBody d with
    | .ok b => b
    | .error _ => false

/-! ### Claim theorems (C1, C2, C4, C5) -/

/-- C1, counterexample: the claim's example value is wrong.  On
`"9 days 6 hours 17 minutes 25 seconds"` the code returns the weighted sum
`800245`, not `799045`; and on `"45 seconds"` it raises `TypeError` (from
`int(None)` on the omitted groups) instead of returning `45`. -/
theorem C1_counterexample :
    _format_uptime "9 days 6 hours 17 minutes 25 seconds" = .ok 800245 ∧
    (800245 : Nat) ≠ 799045 ∧
    _format_uptime "45 seconds" = .error .typeError ∧
    _format_uptime "45 seconds" ≠ .ok 45 := by
  refine ⟨rfl, by decide, rfl, ?_⟩
  intro h
  have he : _format_uptime "45 seconds" = .error .typeError := rfl
  rw [he] at h
  exact Except.noConfusion h

/-- C1 (amended): for duration strings in which all four groups are present,
`_format_uptime` returns exactly `d*86400 + h*3600 + m*60 + s` (so the
spec's example string yields `800245`); when any of the days/hours/minutes
groups is omitted the code raises `TypeError` instead (e.g. `"45 seconds"`).
The magnitude hypothesis keeps the Python float accumulator exact. -/
theorem C1_format_uptime_weighted_sum :
    (∀ (s : String) (d h m sec : Nat),
      matchUptime s.data = some ⟨some d, some h, some m, sec⟩ →
      d * 86400 + h * 3600 + m * 60 + sec < 2 ^ 53 →
      _format_uptime s = .ok (d * 86400 + h * 3600 + m * 60 + sec)) ∧
    _format_uptime "9 days 6 hours 17 minutes 25 seconds" = .ok 800245 ∧
    _format_uptime "45 seconds" = .error .typeError := by
  refine ⟨?_, rfl, rfl⟩
  intro s d h m sec hmatch _
  simp [_format_uptime, hmatch]

/-- C1 witness: the amended theorem applied at a concrete input. -/
theorem C1_witness :
    _format_uptime "1 days 2 hours 3 minutes 4 seconds" = .ok 93784 :=
  C1_format_uptime_weighted_sum.1 "1 days 2 hours 3 minutes 4 seconds" 1 2 3 4 rfl
    (by norm_num)

/-- C2: a temperature record is critical iff its value is strictly outside
`[low, high]`, and on alert iff it is below `low + 0.10*low` or above
`high - 0.10*high`; with `low = 10, high = 90`: value `9` is critical,
`89.5` is not critical but on alert, and `50` is neither. -/
theorem C2_temperature_flags :
    (∀ e : TempRecord,
      ((tempInfoOf e).is_critical = true ↔
        (e.temp_value < e.temp_threshold_low ∨ e.temp_threshold_high < e.temp_value)) ∧
      ((tempInfoOf e).is_alert = true ↔
        (e.temp_value < e.temp_threshold_low + (1 / 10) * e.temp_threshold_low ∨
         e.temp_threshold_high - (1 / 10) * e.temp_threshold_high < e.temp_value))) ∧
    (tempInfoOf ⟨"t", 9, 10, 90⟩).is_critical = true ∧
    (tempInfoOf ⟨"t", 179 / 2, 10, 90⟩).is_critical = false ∧
    (tempInfoOf ⟨"t", 179 / 2, 10, 90⟩).is_alert = true ∧
    (tempInfoOf ⟨"t", 50, 10, 90⟩).is_critical = false ∧
    (tempInfoOf ⟨"t", 50, 10, 90⟩).is_alert = false := by
  refine ⟨?_, ?_, ?_, ?_, ?_, ?_⟩
  · intro e
    constructor
    · simp [tempInfoOf]
    · simp [tempInfoOf, mul_comm]
  · simp [tempInfoOf]
    norm_num
  · simp [tempInfoOf]
    norm_num
  · simp [tempInfoOf]
    norm_num
  · simp [tempInfoOf]
    norm_num
  · simp [tempInfoOf]
    norm_num

/-- C4, counterexample: on an input without the mandatory seconds group the
pattern does not match, and `_format_uptime` raises `AttributeError`
(`None.groupdict()`) — it does not return `0`. -/
theorem C4_counterexample :
    matchUptime "5 minutes".data = none ∧
    _format_uptime "5 minutes" = .error .attributeError ∧
    _format_uptime "5 minutes" ≠ .ok 0 := by
  refine ⟨rfl, rfl, ?_⟩
  intro h
  have he : _format_uptime "5 minutes" = .error .attributeError := rfl
  rw [he] at h
  exact Except.noConfusion h

/-- C4 (amended): whenever the duration pattern fails to match,
`_format_uptime` raises (`AttributeError` on the `None` match object) rather
than returning zero seconds. -/
theorem C4_format_uptime_raises (s : String) (h : matchUptime s.data = none) :
    _format_uptime s = .error .attributeError := by
  simp [_format_uptime, h]

/-- C4 witness: the amended theorem at a concrete non-matching input. -/
theorem C4_witness :
    matchUptime "".data = none ∧ _format_uptime "" = .error .attributeError :=
  ⟨rfl, C4_format_uptime_raises "" rfl⟩

/-- C5: `is_alive` reports `False` when no session is open; on a channel
error (socket error or end-of-stream) during the null-byte probe it reports
`False`; on a successful probe it reports the transport's own active flag.
Its type (`Option NetSession → Bool`) makes it total: no failure mode
escapes as an exception. -/
theorem C5_is_alive :
    is_alive none = false ∧
    (∀ (d : NetSession) (e : ChanErr), d.writeNull = .error e →
      is_alive (some d) = false) ∧
    (∀ d : NetSession, d.writeNull = .ok () →
      is_alive (some d) = d.transportActive) := by
  refine ⟨rfl, ?_, ?_⟩
  · intro d e h
    simp [is_alive, isAliveBody, h]
  · intro d h
    simp [is_alive, isAliveBody, h]

/-- C5 witness: both probe outcomes at concrete sessions. -/
theorem C5_witness :
    is_alive (some ⟨.error .socketError, true⟩) = false ∧
    is_alive (some ⟨.ok (), true⟩) = true :=
  ⟨C5_is_alive.2.1 ⟨.error .socketError, true⟩ .socketError rfl,
   C5_is_alive.2.2 ⟨.ok (), true⟩ rfl⟩

/-! ### Lemmas about the fallback chain -/

lemma sendCmdList_cons (dev : String → PyOutput) (tf : Bool) (c : String)
    (rest : List String) :
    sendCmdList dev tf (c :: rest) =
      if containsInvalid (procOut dev tf c) = false then (procOut dev tf c, [c])
      else if rest.isEmpty then (procOut dev tf c, [c])
      else ((sendCmdList dev tf rest).1, c :: (sendCmdList dev tf rest).2) := rfl

lemma sendCmdList_all_invalid (dev : String → PyOutput) (tf : Bool) :
    ∀ (cmds : List String) (hne : cmds ≠ []),
      (∀ c ∈ cmds, containsInvalid (procOut dev tf c) = true) →
      sendCmdList dev tf cmds = (procOut dev tf (cmds.getLast hne), cmds) := by
  intro cmds
  induction cmds with
  | nil => intro hne; exact absurd rfl hne
  | cons c rest ih =>
    intro hne hall
    have hc : containsInvalid (procOut dev tf c) = true := hall c (by simp)
    match rest with
    | [] =>
      rw [sendCmdList_cons]
      simp [hc]
    | r :: rs =>
      have hrest : (r :: rs : List String) ≠ [] := by simp
      have hih := ih hrest (fun x hx => hall x (by simp [hx]))
      rw [sendCmdList_cons, hih]
      simp [hc, List.getLast_cons]

lemma sendCmdList_first_valid (dev : String → PyOutput) (tf : Bool) :
    ∀ (cmds : List String) (i : Nat), i < cmds.length →
      (∀ j, j < i → containsInvalid (procOut dev tf (cmds.getD j "")) = true) →
      containsInvalid (procOut dev tf (cmds.getD i "")) = false →
      sendCmdList dev tf cmds =
        (procOut dev tf (cmds.getD i ""), cmds.take (i + 1)) := by
  intro cmds
  induction cmds with
  | nil => intro i hi; exact absurd hi (by simp)
  | cons c rest ih =>
    intro i hi hprev hvalid
    match i with
    | 0 =>
      have hc : containsInvalid (procOut dev tf c) = false := hvalid
      rw [sendCmdList_cons]
      simp [hc]
    | i' + 1 =>
      have hc : containsInvalid (procOut dev tf c) = true := hprev 0 (Nat.succ_pos i')
      have hi' : i' < rest.length := Nat.lt_of_succ_lt_succ hi
      match rest, hi' with
      | r :: rs, hi' =>
        have hprev' : ∀ j, j < i' →
            containsInvalid (procOut dev tf ((r :: rs).getD j "")) = true := by
          intro j hj
          exact hprev (j + 1) (Nat.succ_lt_succ hj)
        have hih := ih i' hi' hprev' hvalid
        rw [sendCmdList_cons, hih]
        simp [hc]

lemma sendCmdList_executed (dev : String → PyOutput) (tf : Bool) :
    ∀ (cmds : List String), cmds ≠ [] →
      ∃ k, 0 < k ∧ k ≤ cmds.length ∧ (sendCmdList dev tf cmds).2 = cmds.take k := by
  intro cmds
  induction cmds with
  | nil => intro hne; exact absurd rfl hne
  | cons c rest ih =>
    intro _
    by_cases hc : containsInvalid (procOut dev tf c) = false
    · exact ⟨1, Nat.one_pos, by simp, by rw [sendCmdList_cons]; simp [hc]⟩
    · have hc' : containsInvalid (procOut dev tf c) = true := by
        revert hc
        cases containsInvalid (procOut dev tf c) <;> simp
      match rest with
      | [] => exact ⟨1, Nat.one_pos, by simp, by rw [sendCmdList_cons]; simp [hc']⟩
      | r :: rs =>
        obtain ⟨k, hk0, hkle, hk⟩ := ih (by simp)
        refine ⟨k + 1, Nat.succ_pos k, by simpa using Nat.succ_le_succ hkle, ?_⟩
        rw [sendCmdList_cons]
        simp only [hc', hk]
        simp

/-- C3: the fallback chain executes the candidates in order, each position at
most once (the trace is a prefix of the candidate list); it stops at and
returns the processed result of the first candidate whose output does not
contain `"% Invalid"` (trimmed if unstructured, as-is if structured); and when
every candidate's output contains the marker, the last candidate's output is
returned rather than an error. -/
theorem C3_fallback_chain (dev : String → PyOutput) (tf : Bool)
    (cmds : List String) (hne : cmds ≠ []) :
    (∃ k, 0 < k ∧ k ≤ cmds.length ∧ (sendCmdList dev tf cmds).2 = cmds.take k) ∧
    (∀ i, i < cmds.length →
      (∀ j, j < i → containsInvalid (procOut dev tf (cmds.getD j "")) = true) →
      containsInvalid (procOut dev tf (cmds.getD i "")) = false →
      (sendCmdList dev tf cmds).1 =
        (if tf then dev (cmds.getD i "") else stripOut (dev (cmds.getD i ""))) ∧
      (sendCmdList dev tf cmds).2 = cmds.take (i + 1)) ∧
    ((∀ c ∈ cmds, containsInvalid (procOut dev tf c) = true) →
      (sendCmdList dev tf cmds).1 = procOut dev tf (cmds.getLast hne) ∧
      (sendCmdList dev tf cmds).2 = cmds) := by
  refine ⟨sendCmdList_executed dev tf cmds hne, ?_, ?_⟩
  · intro i hi hprev hvalid
    rw [sendCmdList_first_valid dev tf cmds i hi hprev hvalid]
    exact ⟨rfl, rfl⟩
  · intro hall
    rw [sendCmdList_all_invalid dev tf cmds hne hall]
    exact ⟨rfl, rfl⟩

/-- C3 witness: with candidates `["cmd-a", "cmd-b"]` where `cmd-a` answers
with the invalid-command marker and `cmd-b` succeeds, the chain returns
`cmd-b`'s trimmed output and both candidates were executed, in order. -/
theorem C3_witness :
    (sendCmdList
        (fun c => if c = "cmd-a" then PyOutput.str "% Invalid input detected"
          else PyOutput.str " candidate-b output ")
        false ["cmd-a", "cmd-b"]).1 = PyOutput.str "candidate-b output" ∧
    (sendCmdList
        (fun c => if c = "cmd-a" then PyOutput.str "% Invalid input detected"
          else PyOutput.str " candidate-b output ")
        false ["cmd-a", "cmd-b"]).2 = ["cmd-a", "cmd-b"] := by
  have h := (C3_fallback_chain
      (fun c => if c = "cmd-a" then PyOutput.str "% Invalid input detected"
        else PyOutput.str " candidate-b output ")
      false ["cmd-a", "cmd-b"] (by simp)).2.1 1 (by norm_num)
      (by
        intro j hj
        have hj0 : j = 0 := by omega
        subst hj0
        rfl)
      rfl
  exact ⟨h.1.trans rfl, h.2.trans rfl⟩

/-! ### `cli` (dasan_nos.py lines 134-148) -/

/-- The exceptions `cli` can raise. -/
inductive CliErr where
  | notImplementedError (msg : String)
  | typeError (msg : String)
  | valueError (msg : String)
  deriving DecidableEq

/-- Python dict assignment `d[key] = value` on an insertion-ordered
association list whose keys are unique (as `cli_output` is): update the
existing entry in place, else append. -/
def dictSet : List (String × String) → String → String → List (String × String)
  | [], k, v => [(k, v)]
  | p :: t, k, v => if p.1 = k then (k, v) :: t else p :: dictSet t k v

/-- Python dict lookup `d[key]`. -/
def dictGet (d : List (String × String)) (k : String) : Option String :=
  (d.find? (fun p => p.1 = k)).map (fun p => p.2)

/-- The single-command path of `_send_command` for an unstructured command:
the raw device output, stripped. -/
def sendCmdStr (dev : String → String) (c : String) : String :=
  pyStrip (dev c)

/-- The command loop of `cli`, instrumented with the trace of commands
actually executed: run each command unstructured; on the first output
containing `"Incorrect usage"` raise
`ValueError(f"Unable to execute command {command}")`, discarding the batch;
otherwise store the trimmed output under the exact command string. -/
def cliLoop (dev : String → String) (acc : List (String × String)) :
    List String → Except CliErr (List (String × String)) × List String
  | [] => (.ok acc, [])
  | c :: rest =>
    let output := sendCmdStr dev c
    if strContains "Incorrect usage" output then
      (.error (.valueError ("Unable to execute command " ++ c)), [c])
    else
      let r := cliLoop dev (dictSet acc c output) rest
      (r.1, c :: r.2)

/-- `cli(commands, encoding)`: only `"text"` encoding is supported; the
commands then run through the loop above starting from an empty dict.
(The `isinstance(commands, list)` check is enforced by the Lean type.) -/
def cli (dev : String → String) (commands : List String) (encoding : String) :
    Except CliErr (List (String × String)) :=
  if encoding ≠ "text" then
    .error (.notImplementedError (encoding ++ " is not a supported encoding"))
  else (cliLoop dev [] commands).1

lemma dictGet_set (d : List (String × String)) (k v k' : String) :
    dictGet (dictSet d k v) k' = if k' = k then some v else dictGet d k' := by
  induction d with
  | nil =>
    by_cases h : k' = k
    · simp [dictSet, dictGet, List.find?, h]
    · have h2 : ¬ k = k' := fun hh => h hh.symm
      simp [dictSet, dictGet, List.find?, h, h2]
  | cons p t ih =>
    by_cases hp : p.1 = k
    · by_cases h : k' = k
      · simp [dictSet, dictGet, List.find?, hp, h]
      · have h2 : ¬ k = k' := fun hh => h hh.symm
        simp only [dictSet, hp, if_pos]
        simp [dictGet, List.find?, h, hp, h2]
    · by_cases hpk : p.1 = k'
      · have h : ¬ k' = k := fun hh => hp (hpk.trans hh)
        simp [dictSet, dictGet, List.find?, hp, hpk, h]
      · simp only [dictSet, hp, if_neg, ite_false]
        simp only [dictGet, List.find?] at ih ⊢
        simp [hpk, ih]

lemma cliLoop_cons (dev : String → String) (acc : List (String × String))
    (c : String) (rest : List String) :
    cliLoop dev acc (c :: rest) =
      if strContains "Incorrect usage" (sendCmdStr dev c) then
        (.error (.valueError ("Unable to execute command " ++ c)), [c])
      else ((cliLoop dev (dictSet acc c (sendCmdStr dev c)) rest).1,
        c :: (cliLoop dev (dictSet acc c (sendCmdStr dev c)) rest).2) := rfl

lemma cliLoop_all_ok (dev : String → String) :
    ∀ (cmds : List String) (acc : List (String × String)),
      (∀ c ∈ cmds, strContains "Incorrect usage" (sendCmdStr dev c) = false) →
      ∃ r, cliLoop dev acc cmds = (.ok r, cmds) ∧
        ∀ c, dictGet r c =
          if c ∈ cmds then some (sendCmdStr dev c) else dictGet acc c := by
  intro cmds
  induction cmds with
  | nil => intro acc _; exact ⟨acc, rfl, fun c => by simp⟩
  | cons c rest ih =>
    intro acc hok
    have hc : strContains "Incorrect usage" (sendCmdStr dev c) = false :=
      hok c (by simp)
    obtain ⟨r, hr, hget⟩ :=
      ih (dictSet acc c (sendCmdStr dev c)) (fun x hx => hok x (by simp [hx]))
    refine ⟨r, ?_, ?_⟩
    · rw [cliLoop_cons, if_neg (by simp [hc]), hr]
    · intro x
      rw [hget x]
      by_cases hxr : x ∈ rest
      · simp [hxr]
      · by_cases hxc : x = c
        · subst hxc
          simp [hxr, dictGet_set]
        · simp [hxr, hxc, dictGet_set]

lemma cliLoop_first_bad (dev : String → String) :
    ∀ (cmds : List String) (acc : List (String × String)) (i : Nat),
      i < cmds.length →
      (∀ j, j < i → strContains "Incorrect usage" (sendCmdStr dev (cmds.getD j "")) = false) →
      strContains "Incorrect usage" (sendCmdStr dev (cmds.getD i "")) = true →
      (cliLoop dev acc cmds).1 =
        .error (.valueError ("Unable to execute command " ++ cmds.getD i "")) ∧
      (cliLoop dev acc cmds).2 = cmds.take (i + 1) := by
  intro cmds
  induction cmds with
  | nil => intro acc i hi; exact absurd hi (by simp)
  | cons c rest ih =>
    intro acc i hi hprev hbad
    match i with
    | 0 =>
      have hc : strContains "Incorrect usage" (sendCmdStr dev c) = true := hbad
      rw [cliLoop_cons, if_pos (by simp [hc])]
      simp
    | i' + 1 =>
      have hc : strContains "Incorrect usage" (sendCmdStr dev c) = false :=
        hprev 0 (Nat.succ_pos i')
      have hi' : i' < rest.length := Nat.lt_of_succ_lt_succ hi
      have hprev' : ∀ j, j < i' →
          strContains "Incorrect usage" (sendCmdStr dev (rest.getD j "")) = false := by
        intro j hj
        exact hprev (j + 1) (Nat.succ_lt_succ hj)
      obtain ⟨h1, h2⟩ := ih (dictSet acc c (sendCmdStr dev c)) i' hi' hprev' hbad
      rw [cliLoop_cons, if_neg (by simp [hc])]
      exact ⟨h1, by simp [h2]⟩

/-- C6: `cli` executes the commands in order; at the first command whose
(trimmed) output contains `"Incorrect usage"` it fails with a `ValueError`
naming exactly that command and the batch is aborted — the trace stops at
that command, so no later command is executed and no later output appears;
when no output contains the marker, the result maps each exact command
string to its trimmed output. -/
theorem C6_cli_batch (dev : String → String) (cmds : List String) :
    (∀ i, i < cmds.length →
      (∀ j, j < i → strContains "Incorrect usage" (sendCmdStr dev (cmds.getD j "")) = false) →
      strContains "Incorrect usage" (sendCmdStr dev (cmds.getD i "")) = true →
      cli dev cmds "text" =
        .error (.valueError ("Unable to execute command " ++ cmds.getD i "")) ∧
      (cliLoop dev [] cmds).2 = cmds.take (i + 1)) ∧
    ((∀ c ∈ cmds, strContains "Incorrect usage" (sendCmdStr dev c) = false) →
      ∃ r, cli dev cmds "text" = .ok r ∧ (cliLoop dev [] cmds).2 = cmds ∧
        ∀ c ∈ cmds, dictGet r c = some (sendCmdStr dev c)) := by
  constructor
  · intro i hi hprev hbad
    obtain ⟨h1, h2⟩ := cliLoop_first_bad dev cmds [] i hi hprev hbad
    exact ⟨by simpa [cli] using h1, h2⟩
  · intro hok
    obtain ⟨r, hr, hget⟩ := cliLoop_all_ok dev cmds [] hok
    refine ⟨r, ?_, ?_, ?_⟩
    · simp [cli, hr]
    · simp [hr]
    · intro c hc
      rw [hget c]
      simp [hc]

/-- C6 witness: `["show version", "bogus cmd"]` where the device answers
`"bogus cmd"` with an incorrect-usage marker fails naming `"bogus cmd"`,
with only the two first commands executed. -/
theorem C6_witness :
    cli (fun c => if c = "bogus cmd" then " % Incorrect usage text " else " NOS v1.0 ")
      ["show version", "bogus cmd", "show system"] "text" =
      .error (.valueError "Unable to execute command bogus cmd") ∧
    (cliLoop (fun c => if c = "bogus cmd" then " % Incorrect usage text " else " NOS v1.0 ")
      [] ["show version", "bogus cmd", "show system"]).2 =
      ["show version", "bogus cmd"] := by
  have h := (C6_cli_batch
      (fun c => if c = "bogus cmd" then " % Incorrect usage text " else " NOS v1.0 ")
      ["show version", "bogus cmd", "show system"]).1 1 (by norm_num)
      (by
        intro j hj
        have hj0 : j = 0 := by omega
        subst hj0
        rfl)
      rfl
  exact ⟨h.1.trans rfl, h.2.trans rfl⟩

/-! ### Config sanitization (dasan_nos.py lines 169-177,
`napalm.base.helpers.sanitize_configs`)

Each of the four filters has the shape `(P)​.*$`, substituted with
`\1<removed>` under `re.M`: a prefix pattern `P` built from literals, `\S+`,
`\s+` and (in the ONU rule) one inner `.*`, followed by `.*$` which always
matches the rest of the line.  Because every `\S+`/`\s+` token is followed by
a token starting with a character of the complementary class (and `.*$`
accepts anything), the greedy backtracking match of `P` is deterministic:
each token consumes its maximal run.  The inner `.*` of the ONU rule is the
one genuinely greedy choice: the engine commits to the largest prefix of the
current line after which the rest of `P` matches.  The matchers below return
`(matched prefix, rest)`. -/

/-- `\s+`: maximal nonempty whitespace run. -/
def wsPlus (s : List Char) : Option (List Char × List Char) :=
  if (s.takeWhile pyIsSpace).isEmpty then none
  else some (s.takeWhile pyIsSpace, s.dropWhile pyIsSpace)

/-- `\S+`: maximal nonempty non-whitespace run. -/
def nwPlus (s : List Char) : Option (List Char × List Char) :=
  if (s.takeWhile (fun c => !pyIsSpace c)).isEmpty then none
  else some (s.takeWhile (fun c => !pyIsSpace c), s.dropWhile (fun c => !pyIsSpace c))

/-- A literal pattern fragment. -/
def litPm (lit : List Char) (s : List Char) : Option (List Char × List Char) :=
  match dropLit lit s with
  | none => none
  | some r => some (lit, r)

/-- Sequencing of two pattern fragments. -/
def pmSeq (a b : List Char → Option (List Char × List Char)) (s : List Char) :
    Option (List Char × List Char) :=
  match a s with
  | none => none
  | some (p1, r1) =>
    match b r1 with
    | none => none
    | some (p2, r2) => some (p1 ++ p2, r2)

/-- Greedy `.*` followed by a continuation pattern: try the split points of
the current line from the longest prefix down, as the backtracking engine
does, and commit to the first (longest) one where the continuation matches. -/
def dotGreedy (pm : List Char → Option (List Char × List Char)) (s : List Char) :
    Nat → Option (List Char × List Char)
  | 0 =>
    match pm s with
    | none => none
    | some (p, r) => some (p, r)
  | L + 1 =>
    match pm (s.drop (L + 1)) with
    | none => dotGreedy pm s L
    | some (p, r) => some (s.take (L + 1) ++ p, r)

/-- `.*` (not crossing a newline) then the continuation pattern, greedy. -/
def dotThen (pm : List Char → Option (List Char × List Char)) (s : List Char) :
    Option (List Char × List Char) :=
  dotGreedy pm s (s.takeWhile (fun c => c ≠ '\n')).length

/-- `(mgmt-mode tr-069 access id \S+\s+password\s+)`. -/
def rule1Pm : List Char → Option (List Char × List Char) :=
  pmSeq (litPm "mgmt-mode tr-069 access id ".data)
    (pmSeq nwPlus (pmSeq wsPlus (pmSeq (litPm "password".data) wsPlus)))

/-- The continuation of the ONU rule after its inner `.*`:
`\s+ftp\s+\S+\s+\S+\s+`. -/
def rule2Tail : List Char → Option (List Char × List Char) :=
  pmSeq wsPlus (pmSeq (litPm "ftp".data)
    (pmSeq wsPlus (pmSeq nwPlus (pmSeq wsPlus (pmSeq nwPlus wsPlus)))))

/-- `(onu auto-upgrade firmware.*\s+ftp\s+\S+\s+\S+\s+)`. -/
def rule2Pm : List Char → Option (List Char × List Char) :=
  pmSeq (litPm "onu auto-upgrade firmware".data) (fun s => dotThen rule2Tail s)

/-- `(snmp trap\S+\s+\S+\s+)`. -/
def rule3Pm : List Char → Option (List Char × List Char) :=
  pmSeq (litPm "snmp trap".data) (pmSeq nwPlus (pmSeq wsPlus (pmSeq nwPlus wsPlus)))

/-- `(snmp community\s+\S+\s+)`. -/
def rule4Pm : List Char → Option (List Char × List Char) :=
  pmSeq (litPm "snmp community".data) (pmSeq wsPlus (pmSeq nwPlus wsPlus))

/-- The replacement text appended to the preserved prefix. -/
def removedTxt : List Char := "<removed>".data

/-- `re.sub(rule, r"\1<removed>", s, flags=re.M)`: scan left to right; at the
leftmost position where the prefix pattern matches, the whole match extends
through `.*$` to the end of the current line; emit the preserved prefix plus
`<removed>` and continue scanning at the match end (the newline, if any).
The fuel argument (an upper bound on the remaining length) only serves
structural recursion; every rule consumes at least its nonempty literal. -/
def subRuleGo (pm : List Char → Option (List Char × List Char)) :
    Nat → List Char → List Char
  | _, [] => []
  | 0, s => s
  | fuel + 1, c :: t =>
    match pm (c :: t) with
    | none => c :: subRuleGo pm fuel t
    | some (pre, rest) =>
      pre ++ removedTxt ++ subRuleGo pm fuel (rest.dropWhile (fun x => x ≠ '\n'))

/-- One `re.sub` pass for one rule. -/
def subRule (pm : List Char → Option (List Char × List Char)) (s : List Char) :
    List Char :=
  subRuleGo pm s.length s

/-- `sanitize_config`: the four substitutions applied in the filter dict's
insertion order (TR-069, ONU auto-upgrade, SNMP trap, SNMP community). -/
def sanitize_config (s : String) : String :=
  ⟨subRule rule4Pm (subRule rule3Pm (subRule rule2Pm (subRule rule1Pm s.data)))⟩

/-- The `get_config` result shape (`models.ConfigDict`). -/
structure ConfigDict where
  startup : String
  running : String
  candidate : String
  deriving DecidableEq

/-- `napalm.base.helpers.sanitize_configs`: sanitize every truthy (non-empty)
text field; falsy fields are left as they are (sanitizing the empty string
would return it unchanged anyway). -/
def sanitize_configs (d : ConfigDict) : ConfigDict :=
  { startup := if d.startup = "" then d.startup else sanitize_config d.startup
  , running := if d.running = "" then d.running else sanitize_config d.running
  , candidate := if d.candidate = "" then d.candidate else sanitize_config d.candidate }

/-- `get_config(retrieve, full, sanitized)`: after privilege elevation (which
does not contribute to the returned data), start from all-empty fields, fill
`running` when `retrieve in ["all", "running"]`, then `startup` when
`retrieve in ["all", "startup"]`, each from the corresponding `show` command
through the single-command path (stripped); finally sanitize on request.
`full` is accepted and never read. -/
def get_config (dev : String → String) (retrieve : String) (full : Bool)
    (sanitized : Bool) : ConfigDict :=
  let data0 : ConfigDict := ⟨"", "", ""⟩
  let data1 :=
    if retrieve = "all" ∨ retrieve = "running" then
      { data0 with running := sendCmdStr dev "show running-config" }
    else data0
  let data2 :=
    if retrieve = "all" ∨ retrieve = "startup" then
      { data1 with startup := sendCmdStr dev "show startup-config" }
    else data1
  if sanitized then sanitize_configs data2 else data2

/-- C8: `get_config(retrieve="startup")` leaves `running` empty and fills
`startup` from the device (sanitized on request); `retrieve="all"` fills
both; and `candidate` is empty for every retrieve value. -/
theorem C8_get_config_shape (dev : String → String) (full : Bool)
    (sanitized : Bool) :
    (get_config dev "startup" full sanitized).running = "" ∧
    (get_config dev "startup" full false).startup =
      sendCmdStr dev "show startup-config" ∧
    (get_config dev "startup" full true).startup =
      (if sendCmdStr dev "show startup-config" = "" then
        sendCmdStr dev "show startup-config"
       else sanitize_config (sendCmdStr dev "show startup-config")) ∧
    (get_config dev "all" full false).running =
      sendCmdStr dev "show running-config" ∧
    (get_config dev "all" full false).startup =
      sendCmdStr dev "show startup-config" ∧
    (get_config dev "all" full true).running =
      (if sendCmdStr dev "show running-config" = "" then
        sendCmdStr dev "show running-config"
       else sanitize_config (sendCmdStr dev "show running-config")) ∧
    (get_config dev "all" full true).startup =
      (if sendCmdStr dev "show startup-config" = "" then
        sendCmdStr dev "show startup-config"
       else sanitize_config (sendCmdStr dev "show startup-config")) ∧
    (∀ retrieve : String, (get_config dev retrieve full sanitized).candidate = "") := by
  refine ⟨?_, rfl, rfl, rfl, rfl, rfl, rfl, ?_⟩
  · cases sanitized <;> rfl
  · intro retrieve
    unfold get_config
    by_cases h1 : retrieve = "all" ∨ retrieve = "running" <;>
      by_cases h2 : retrieve = "all" ∨ retrieve = "startup" <;>
        cases sanitized <;>
          simp [h1, h2, sanitize_configs]

/-- C10: the result of `get_config` does not depend on `full` — the
parameter is accepted and never read, so calls differing only in `full`
return identical snapshots. -/
theorem C10_full_has_no_effect (dev : String → String) (retrieve : String)
    (sanitized : Bool) :
    get_config dev retrieve true sanitized =
      get_config dev retrieve false sanitized := rfl

/-- C7, counterexample: sanitization is NOT idempotent.  On the running
config `"onu auto-upgrade firmwaresnmp trapX ftp 9 s d\ns "` the first pass
first lets the ONU rule redact the tail of the line and then lets the
SNMP-trap rule (applied later in the same pass) redact a span overlapping
the ONU rule's match; in the resulting text the ONU rule matches again —
its `\s+` tokens cross the newline and pick up `<removed>` and `s` as the
two `\S+` tokens — so a second sanitization pass redacts further text.
(Checked against CPython `re.sub` with `re.M` on this exact input.) -/
theorem C7_counterexample :
    sanitize_config "onu auto-upgrade firmwaresnmp trapX ftp 9 s d\ns " =
      "onu auto-upgrade firmwaresnmp trapX ftp <removed>\ns " ∧
    sanitize_config "onu auto-upgrade firmwaresnmp trapX ftp <removed>\ns " =
      "onu auto-upgrade firmwaresnmp trapX ftp <removed>\ns <removed>" ∧
    sanitize_configs (sanitize_configs
        ⟨"", "onu auto-upgrade firmwaresnmp trapX ftp 9 s d\ns ", ""⟩) ≠
      sanitize_configs
        ⟨"", "onu auto-upgrade firmwaresnmp trapX ftp 9 s d\ns ", ""⟩ := by
  refine ⟨rfl, rfl, ?_⟩
  decide

/-- C7 (amended): config sanitization is not idempotent — there are
snapshots on which a second application of the four redaction rules redacts
additional text, because a later rule's replacement can overlap and destroy
an earlier rule's already-redacted match, which then re-matches (across the
line break) on the next pass. -/
theorem C7_sanitize_not_idempotent :
    ∃ d : ConfigDict,
      sanitize_configs (sanitize_configs d) ≠ sanitize_configs d := by
  refine ⟨⟨"", "onu auto-upgrade firmwaresnmp trapX ftp 9 s d\ns ", ""⟩, ?_⟩
  decide

/-! ### The bounding pattern of `_send_command` (dasan_nos.py lines 93-95)

The code reads the device prompt, strips it, takes its last character `X` and
builds the pattern `"[>#{}]\s*$".format(X)`, i.e. the character class
`[>#X]`, then optional whitespace, anchored at the end.  (`X` is assumed to
be an ordinary character — not `]`, `^` or a backslash, which would distort
the class.)  `$` is modelled as end-of-string; since `\s*` precedes it and
can absorb a trailing newline, this has the same match-existence semantics
as Python's default `$`. -/

/-- Elements of the regex fragment `[...]\s*$`. -/
inductive RElem where
  | cls (p : Char → Bool)
  | star (p : Char → Bool)
  | eos

/-- Greedy-with-backtracking `p*` before a continuation `k`. -/
def matchStar (p : Char → Bool) (k : List Char → Bool) : List Char → Bool
  | [] => k []
  | c :: t => k (c :: t) || (p c && matchStar p k t)

/-- Match the pattern elements at the start of a piece of text (the rest is
unconstrained once the pattern is exhausted). -/
def matchElems : List RElem → List Char → Bool
  | [], _ => true
  | .cls _ :: _, [] => false
  | .cls p :: ps, c :: t => p c && matchElems ps t
  | .star p :: ps, s => matchStar p (matchElems ps) s
  | .eos :: ps, s => s.isEmpty && matchElems ps []

/-- `re.search`: try every start position, left to right. -/
def reSearch (pat : List RElem) (s : String) : Bool :=
  s.data.tails.any (fun t => matchElems pat t)

/-- `self.device.find_prompt().strip()[-1]` (none when the stripped prompt
is empty, where the Python code would raise `IndexError`). -/
def promptTermChar (prompt : String) : Option Char :=
  (pyStrip prompt).data.getLast?

/-- The bounding pattern `"[>#{}]\s*$".format(terminating_char)`. -/
def boundPat (t : Char) : List RElem :=
  [.cls (fun c => c = '>' || c = '#' || c = t), .star pyIsSpace, .eos]

lemma matchStar_allWs (p : Char → Bool) :
    ∀ l : List Char, matchStar p (matchElems [RElem.eos]) l = l.all p := by
  intro l
  induction l with
  | nil => rfl
  | cons c t ih =>
    rw [matchStar, ih]
    simp [matchElems]

lemma matchElems_boundPat_iff (t : Char) (l : List Char) :
    matchElems (boundPat t) l = true ↔
      ∃ c u, l = c :: u ∧ (c = '>' ∨ c = '#' ∨ c = t) ∧ u.all pyIsSpace = true := by
  cases l with
  | nil => simp [boundPat, matchElems]
  | cons c u =>
    have h1 : matchElems (boundPat t) (c :: u) =
        ((decide (c = '>') || decide (c = '#') || decide (c = t)) &&
          matchStar pyIsSpace (matchElems [RElem.eos]) u) := rfl
    rw [h1, matchStar_allWs]
    simp only [Bool.and_eq_true, Bool.or_eq_true, decide_eq_true_eq]
    constructor
    · rintro ⟨hcls, hall⟩
      exact ⟨c, u, rfl, by tauto, hall⟩
    · rintro ⟨c', u', heq, hcls, hall⟩
      cases heq
      exact ⟨by tauto, hall⟩

lemma dropWhile_allTrue_append (p : Char → Bool) (a b : List Char)
    (ha : a.all p = true) : (a ++ b).dropWhile p = b.dropWhile p := by
  induction a with
  | nil => rfl
  | cons x xs ih =>
    simp only [List.all_cons, Bool.and_eq_true] at ha
    simp [List.dropWhile, ha.1, ih ha.2]

/-- C9, counterexample: the built pattern does not match only the prompt's
terminal character.  With prompt `"SWITCH>"` the terminal character is `>`,
yet the pattern also matches output ending in the other class character
`#`. -/
theorem C9_counterexample :
    promptTermChar "SWITCH>" = some '>' ∧
    reSearch (boundPat '>') "admin mode output# " = true ∧
    ('#' : Char) ≠ '>' := by
  exact ⟨rfl, rfl, by decide⟩

/-- C9 (amended): for a terminal character `t` (the last character of the
stripped prompt, hence not whitespace), the bounding pattern matches exactly
the outputs whose final non-whitespace character is `>`, `#` or `t` — the
two hard-coded class characters in addition to the prompt's own terminal
character, each followed by optional trailing whitespace at end-of-output. -/
theorem C9_bound_pattern_matches (t : Char) (ht : pyIsSpace t = false)
    (s : String) :
    reSearch (boundPat t) s = true ↔
      ∃ c, (s.data.reverse.dropWhile pyIsSpace).head? = some c ∧
        (c = '>' ∨ c = '#' ∨ c = t) := by
  have hcls : ∀ c : Char, (c = '>' ∨ c = '#' ∨ c = t) → pyIsSpace c = false := by
    rintro c (rfl | rfl | rfl)
    · rfl
    · rfl
    · exact ht
  constructor
  · intro h
    simp only [reSearch, List.any_eq_true] at h
    obtain ⟨l, hl, hm⟩ := h
    rw [List.mem_tails] at hl
    obtain ⟨c, u, rfl, hc, hall⟩ := (matchElems_boundPat_iff t l).mp hm
    obtain ⟨pre, hpre⟩ := hl
    refine ⟨c, ?_, hc⟩
    have : s.data.reverse = u.reverse ++ (c :: pre.reverse) := by
      rw [← hpre]
      simp
    rw [this, dropWhile_allTrue_append pyIsSpace u.reverse (c :: pre.reverse)
      (by simpa using hall)]
    simp [List.dropWhile, hcls c hc]
  · rintro ⟨c, hc, hcl⟩
    have hdecomp := List.takeWhile_append_dropWhile (p := pyIsSpace)
      (l := s.data.reverse)
    match hdw : s.data.reverse.dropWhile pyIsSpace with
    | [] => rw [hdw] at hc; exact absurd hc (by simp)
    | c' :: u =>
      rw [hdw] at hc
      have hcc : c' = c := by simpa using hc
      subst hcc
      rw [hdw] at hdecomp
      have hsd : s.data = u.reverse ++ (c' :: (s.data.reverse.takeWhile pyIsSpace).reverse) := by
        have := congrArg List.reverse hdecomp
        simpa using this.symm
      simp only [reSearch, List.any_eq_true]
      refine ⟨c' :: (s.data.reverse.takeWhile pyIsSpace).reverse, ?_, ?_⟩
      · rw [List.mem_tails]
        exact ⟨u.reverse, hsd.symm⟩
      · rw [matchElems_boundPat_iff]
        refine ⟨c', (s.data.reverse.takeWhile pyIsSpace).reverse, rfl, hcl, ?_⟩
        rw [List.all_eq_true]
        intro x hx
        rw [List.mem_reverse] at hx
        exact List.mem_takeWhile_imp hx

/-- C9 witness: the amended characterization applied at a concrete prompt
character and output. -/
theorem C9_witness :
    reSearch (boundPat '$') "router output$  " = true :=
  (C9_bound_pattern_matches '$' rfl "router output$  ").mpr
    ⟨'$', rfl, Or.inr (Or.inr rfl)⟩

end DasanNOS
